/-
Verification of the optopia command-line option parser (optopia.go).

The Go source is shallowly embedded: Go strings become lists of
characters, the two registry maps (long name and short name to *Option)
become association lists of keys to indices into a heap of Option
records (so that an option registered under both names is a single
shared, mutable entity, as in the source where both maps hold the same
pointer), and the Parse loop becomes a fuel-indexed recursion whose
fuel is computed from the input and always suffices (every loop
iteration of the source either consumes a token or shrinks the current
token by one character).  Out-of-range string indexing, which panics in
Go, is modelled by an explicit panicked outcome.  Handler callbacks are
modelled as Lean functions returning an optional error string, and each
invocation is recorded in an event trace so that theorems can speak
about when and with which argument a handler ran.

Errors are modelled exactly as in the source: plain strings built by
mkErr from the standard error codes, with the prefix-based kind test
errIs mirroring the err.Is method.
-/
import Mathlib

namespace Optopia

/-- Go strings, one character per Go byte (all inputs of interest are ASCII). -/
abbrev Str := List Char

/-- Convenience conversion from a Lean string literal. -/
def str (s : String) : Str := s.data

/-- The standard error codes of optopia.go, as their error strings. -/
def errNoSuchOption : Str := str "no such option"

def errOptionRequiresValue : Str := str "option requires value"

def errParsingValue : Str := str "failure parsing option value"

def errDuplicateOption : Str := str "duplicate option"

def errShortOptionTooLong : Str := str "short option too long"

def errShortAndLongEmpty : Str := str "long and short options both empty"

/-- mkErr from optopia.go: fmt.Sprintf with a colon between code and detail. -/
def mkErr (e : Str) (opt : Str) : Str := e ++ str ": " ++ opt

/-- The err.Is method of optopia.go: the target error has this code as prefix. -/
def errIs (code : Str) (target : Str) : Bool := code.isPrefixOf target

/-- Go's strconv lower: set the ASCII case bit. -/
def lowerC (c : Char) : Char := Char.ofNat (c.toNat ||| 0x20)

/-- strconv.ParseBool: the exact literal sets Go accepts, as (value, ok). -/
def goParseBool (s : Str) : Bool × Bool :=
  if s = str "1" ∨ s = str "t" ∨ s = str "T" ∨ s = str "true" ∨ s = str "TRUE" ∨ s = str "True" then
    (true, true)
  else if s = str "0" ∨ s = str "f" ∨ s = str "F" ∨ s = str "false" ∨ s = str "FALSE" ∨ s = str "False" then
    (false, true)
  else
    (false, false)

/-- Outcome of the digit-consuming loop of strconv.ParseUint: the
accumulated value together with whether an underscore was skipped,
or a syntax or range failure. -/
inductive DigitsRes where
  | ok (n : Nat) (sawUnderscore : Bool)
  | syn
  | rng
deriving DecidableEq

/-- The digit loop of strconv.ParseUint.  Underscores are skipped only
when base 0 was requested; digits beyond the base, or any other
character, are a syntax error; exceeding maxVal is a range error and
stops immediately, as in the source. -/
def goDigits (base maxVal : Nat) (base0 : Bool) : Str → Nat → Bool → DigitsRes
  | [], n, us => .ok n us
  | c :: cs, n, us =>
    if c = '_' ∧ base0 then
      goDigits base maxVal base0 cs n true
    else if '0' ≤ c ∧ c ≤ '9' then
      let d := c.toNat - '0'.toNat
      if d ≥ base then .syn
      else if n * base + d > maxVal then .rng
      else goDigits base maxVal base0 cs (n * base + d) us
    else if 'a' ≤ lowerC c ∧ lowerC c ≤ 'z' then
      let d := (lowerC c).toNat - 'a'.toNat + 10
      if d ≥ base then .syn
      else if n * base + d > maxVal then .rng
      else goDigits base maxVal base0 cs (n * base + d) us
    else .syn

/-- Inner loop of strconv's underscoreOK, tracking the kind of the last
character seen: '0' digit or base prefix, '_' underscore, '^' start,
'!' other. -/
def underscoreOKLoop (hex : Bool) : Str → Char → Bool
  | [], saw => saw ≠ '_'
  | c :: cs, saw =>
    if ('0' ≤ c ∧ c ≤ '9') ∨ (hex ∧ 'a' ≤ lowerC c ∧ lowerC c ≤ 'f') then
      underscoreOKLoop hex cs '0'
    else if c = '_' then
      if saw ≠ '0' then false else underscoreOKLoop hex cs '_'
    else if saw = '_' then false
    else underscoreOKLoop hex cs '!'

/-- strconv's underscoreOK: underscores must separate digits, possibly
after a sign and a base prefix. -/
def underscoreOK (s : Str) : Bool :=
  let s1 : Str :=
    match s with
    | c :: cs => if c = '-' ∨ c = '+' then cs else s
    | [] => s
  match s1 with
  | '0' :: c :: rest =>
    if lowerC c = 'b' ∨ lowerC c = 'o' ∨ lowerC c = 'x' then
      underscoreOKLoop (lowerC c = 'x') rest '0'
    else
      underscoreOKLoop false s1 '^'
  | _ => underscoreOKLoop false s1 '^'

/-- Error kinds of strconv number parsing. -/
inductive NumErr where
  | syn
  | rng
deriving DecidableEq

/-- strconv.ParseUint(s, base, bitSize) for the two uses in optopia.go:
base 10 (base0 = false) and base 0 with prefix auto-detection
(base0 = true).  Returns the Go result value together with the error:
0 on syntax error, the maximal value on range error. -/
def goParseUint (s0 : Str) (base0 : Bool) (bitSize : Nat) : Nat × Option NumErr :=
  if s0 = [] then (0, some .syn)
  else
    let p : Nat × Str :=
      if base0 then
        match s0 with
        | '0' :: c :: rest =>
          if rest ≠ [] ∧ lowerC c = 'b' then (2, rest)
          else if rest ≠ [] ∧ lowerC c = 'o' then (8, rest)
          else if rest ≠ [] ∧ lowerC c = 'x' then (16, rest)
          else (8, c :: rest)
        | '0' :: [] => (8, [])
        | _ => (10, s0)
      else (10, s0)
    let maxVal := 2 ^ bitSize - 1
    match goDigits p.1 maxVal base0 p.2 0 false with
    | .syn => (0, some .syn)
    | .rng => (maxVal, some .rng)
    | .ok n us =>
      if us ∧ ¬ underscoreOK s0 then (0, some .syn)
      else (n, none)

/-- strconv.ParseInt(s, 10, bitSize): optional sign, then ParseUint in
base 10, then the signed range checks; on range error the clamped
extreme is returned, as in Go. -/
def goParseInt (s0 : Str) (bitSize : Nat) : Int × Option NumErr :=
  if s0 = [] then (0, some .syn)
  else
    let p : Bool × Str :=
      match s0 with
      | '+' :: cs => (false, cs)
      | '-' :: cs => (true, cs)
      | _ => (false, s0)
    let r := goParseUint p.2 false bitSize
    match r.2 with
    | some .syn => (0, some .syn)
    | _ =>
      let cutoff : Nat := 2 ^ (bitSize - 1)
      if ¬ p.1 ∧ r.1 ≥ cutoff then ((cutoff : Int) - 1, some .rng)
      else if p.1 ∧ r.1 > cutoff then (-(cutoff : Int), some .rng)
      else (if p.1 then -(r.1 : Int) else (r.1 : Int), none)

/-- The ValueReceiver of an Option: the state of the externally owned
destination slot, or noRecv for a nil interface.  A TextUnmarshaler
destination is abstracted by its success predicate. -/
inductive Recv where
  | noRecv
  | rBool (v : Bool)
  | rString (v : Str)
  | rInt (v : Int)
  | rInt64 (v : Int)
  | rUint64 (v : Nat)
  | rText (unmarshal : Str → Bool)

/-- Whether the ValueReceiver interface is nil. -/
def recvNil : Recv → Bool
  | .noRecv => true
  | _ => false

/-- The Option struct of optopia.go.  Handle is the optional callback,
returning an error string or none for success. -/
structure Opt where
  long : Str
  short : Str
  hasValue : Bool
  valueReceiver : Recv
  handle : Option (Str → Option Str)
  seen : Bool
  rawValue : Str

/-- The zero Option, used as an out-of-range default for the heap. -/
def defaultOpt : Opt :=
  { long := [], short := [], hasValue := false, valueReceiver := .noRecv,
    handle := none, seen := false, rawValue := [] }

instance : Inhabited Opt := ⟨defaultOpt⟩

/-- The Options struct: the two maps hold indices into a heap of Option
records, modelling the shared *Option pointers of the source. -/
structure Options where
  longM : List (Str × Nat)
  shortM : List (Str × Nat)
  opts : List Opt

/-- The zero Options value, usable immediately as in the source. -/
def emptyOptions : Options := { longM := [], shortM := [], opts := [] }

/-- Dereference an option index in the heap. -/
def getOpt (opts : List Opt) (idx : Nat) : Opt := opts.getD idx defaultOpt

/-- Final step of a successful Add iteration: reset Seen and RawValue
on the registered option, as lines 143-144 of the source do. -/
def addFinish (o : Options) (idx : Nat) (opt1 : Opt) : Options × Option Str :=
  ({ o with opts := o.opts.set idx { opt1 with seen := false, rawValue := [] } }, none)

/-- The short-name half of an Add iteration: length check, duplicate
check, insertion.  Runs after the long name has already been inserted. -/
def addShortPhase (o : Options) (idx : Nat) (opt1 : Opt) : Options × Option Str :=
  if opt1.short = [] then addFinish o idx opt1
  else if opt1.short.length > 1 then (o, some (mkErr errShortOptionTooLong opt1.short))
  else if (o.shortM.lookup opt1.short).isSome then (o, some (mkErr errDuplicateOption opt1.short))
  else addFinish { o with shortM := (opt1.short, idx) :: o.shortM } idx opt1

/-- One iteration of Options.Add: force HasValue when a receiver is
attached, reject an option with neither name, then insert under the
long name and the short name in that order, failing without rollback. -/
def addOne (o : Options) (opt0 : Opt) : Options × Option Str :=
  let opt1 := if recvNil opt0.valueReceiver then opt0 else { opt0 with hasValue := true }
  if opt1.long = [] ∧ opt1.short = [] then (o, some errShortAndLongEmpty)
  else
    let idx := o.opts.length
    let o1 : Options := { o with opts := o.opts ++ [opt1] }
    if opt1.long = [] then addShortPhase o1 idx opt1
    else if (o1.longM.lookup opt1.long).isSome then (o1, some (mkErr errDuplicateOption opt1.short))
    else addShortPhase { o1 with longM := (opt1.long, idx) :: o1.longM } idx opt1

/-- Options.Add over its variadic argument list: stop at the first
failing option, keeping everything registered so far. -/
def add : Options → List Opt → Options × Option Str
  | o, [] => (o, none)
  | o, opt :: rest =>
    match addOne o opt with
    | (o1, none) => add o1 rest
    | (o1, some e) => (o1, some e)

/-- Events observable during Parse: a successful coercion into the
receiver of the option at a heap index, and a handler invocation with
its argument string. -/
inductive Event where
  | coerced (idx : Nat) (val : Str)
  | handled (idx : Nat) (val : Str)
deriving DecidableEq

/-- Result of one iteration of the Parse loop: loop exit with the
residual arguments, an error return (with the mutated heap), a Go
runtime panic, or continuation with new heap and argument states. -/
inductive Iter where
  | done (residual : List Str)
  | fail (e : Str) (opts : List Opt) (tr : List Event)
  | panicked (opts : List Opt)
  | next (opts : List Opt) (args : List Str) (tr : List Event)

/-- The value-coercion switch of Parse, dispatching on the receiver
type.  Returns the new receiver state, the (possibly boolean-remapped)
local val variable, and whether coercion succeeded.  Receiver updates
mirror the source exactly: the bool, int64 and uint64 cases assign the
strconv result even on failure, the int case assigns only on success. -/
def coerce (r : Recv) (val : Str) : Recv × Str × Bool :=
  match r with
  | .noRecv => (.noRecv, val, true)
  | .rBool _ =>
    let v2 :=
      if val = str "y" ∨ val = str "Y" ∨ val = str "YES" ∨ val = str "yes" then str "true"
      else if val = str "n" ∨ val = str "N" ∨ val = str "NO" ∨ val = str "no" then str "false"
      else val
    let b := goParseBool v2
    (.rBool b.1, v2, b.2)
  | .rString _ => (.rString val, val, true)
  | .rInt old =>
    let r2 := goParseInt val 32
    if r2.2 = none then (.rInt r2.1, val, true) else (.rInt old, val, false)
  | .rInt64 _ =>
    let r2 := goParseInt val 64
    (.rInt64 r2.1, val, r2.2 = none)
  | .rUint64 _ =>
    let r2 := goParseUint val true 64
    (.rUint64 r2.1, val, r2.2 = none)
  | .rText f => (.rText f, val, f val)

/-- The Handle dispatch at the end of a Parse iteration: invoke the
callback with the current val if present; a callback error is returned
verbatim. -/
def dispatchHandle (opts : List Opt) (idx : Nat) (val : Str) (args : List Str)
    (tr : List Event) : Iter :=
  match (getOpt opts idx).handle with
  | none => .next opts args tr
  | some h =>
    match h val with
    | none => .next opts args (tr ++ [.handled idx val])
    | some e => .fail e opts (tr ++ [.handled idx val])

/-- Steps 8-10 of a Parse iteration for a resolved option: commit Seen
and RawValue, coerce into the receiver if the option takes a value and
one is attached (failure aborts with ParsingValue carrying the original
token), then dispatch the handler. -/
def applyOpt (opts : List Opt) (idx : Nat) (arg0 : Str) (val : Str)
    (args : List Str) : Iter :=
  let opt := getOpt opts idx
  let opt1 := { opt with seen := true, rawValue := if opt.hasValue then val else opt.rawValue }
  let opts1 := opts.set idx opt1
  if opt1.hasValue && !recvNil opt1.valueReceiver then
    let c := coerce opt1.valueReceiver val
    let opts2 := opts1.set idx { opt1 with valueReceiver := c.1 }
    if c.2.2 then dispatchHandle opts2 idx c.2.1 args [.coerced idx c.2.1]
    else .fail (mkErr errParsingValue arg0) opts2 []
  else
    dispatchHandle opts1 idx val args []

/-- Steps 6-7 of a Parse iteration: a value-taking option with no
remaining input fails with OptionRequiresValue; otherwise the next
token (which, for inline forms, is the rewritten current token) becomes
the raw value. -/
def afterMatch (opts : List Opt) (idx : Nat) (arg0 : Str) (args : List Str) : Iter :=
  if (getOpt opts idx).hasValue then
    match args with
    | [] => .fail (mkErr errOptionRequiresValue arg0) opts []
    | v :: rest => applyOpt opts idx arg0 v rest
  else
    applyOpt opts idx arg0 [] args

/-- SplitN(name, "=", 2): the parts before and after the first '=',
or none when no '=' occurs. -/
def splitEq : Str → Option (Str × Str)
  | [] => none
  | c :: cs =>
    if c = '=' then some ([], cs)
    else
      match splitEq cs with
      | some p => some (c :: p.1, p.2)
      | none => none

/-- One iteration of the Parse loop, given the current argument list:
terminator, non-option stop, long form (exact match first, then the
name=value split requiring a value-taking option), or short form
(clustering for value-less options, inline values for value-taking
ones, and the Go panic of name[:1] on the bare "-" token). -/
def parseIter (o : Options) (args : List Str) : Iter :=
  match args with
  | [] => .done []
  | arg :: rest =>
    if arg = str "--" then .done rest
    else if ¬ (str "-").isPrefixOf arg then .done (arg :: rest)
    else if (str "--").isPrefixOf arg then
      let name := arg.drop 2
      match o.longM.lookup name with
      | some idx => afterMatch o.opts idx arg rest
      | none =>
        match splitEq name with
        | some p =>
          match o.longM.lookup p.1 with
          | some idx =>
            if (getOpt o.opts idx).hasValue then afterMatch o.opts idx arg (p.2 :: rest)
            else .fail (mkErr errNoSuchOption arg) o.opts []
          | none => .fail (mkErr errNoSuchOption arg) o.opts []
        | none => .fail (mkErr errNoSuchOption arg) o.opts []
    else
      match arg.drop 1 with
      | [] => .panicked o.opts
      | c :: cs =>
        match o.shortM.lookup [c] with
        | none => .fail (mkErr errNoSuchOption arg) o.opts []
        | some idx =>
          if cs ≠ [] then
            if (getOpt o.opts idx).hasValue then
              let newTok :=
                if cs.head? = some '=' ∧ o.shortM.lookup (str "=") = none then cs.tail else cs
              afterMatch o.opts idx arg (newTok :: rest)
            else afterMatch o.opts idx arg (('-' :: cs) :: rest)
          else afterMatch o.opts idx arg rest

/-- Result of Options.Parse: the returned residual and error, the final
heap, the event trace, whether the run panicked, and whether the fuel
of the model ran out (never the case for the fuel chosen by parse). -/
structure PRes where
  residual : List Str
  error : Option Str
  opts : List Opt
  trace : List Event
  panicked : Bool
  fuelOut : Bool

/-- The Parse loop, driven by fuel. -/
def parseLoop : Nat → Options → List Str → List Event → PRes
  | 0, o, _, tr =>
    { residual := [], error := none, opts := o.opts, trace := tr,
      panicked := false, fuelOut := true }
  | fuel + 1, o, args, tr =>
    match parseIter o args with
    | .done res =>
      { residual := res, error := none, opts := o.opts, trace := tr,
        panicked := false, fuelOut := false }
    | .fail e opts1 tr1 =>
      { residual := [], error := some e, opts := opts1, trace := tr ++ tr1,
        panicked := false, fuelOut := false }
    | .panicked opts1 =>
      { residual := [], error := none, opts := opts1, trace := tr,
        panicked := true, fuelOut := false }
    | .next opts1 args1 tr1 =>
      parseLoop fuel { o with opts := opts1 } args1 (tr ++ tr1)

/-- Fuel bound: every iteration consumes a token or shrinks the current
token by one character, so the total character count plus the token
count strictly decreases. -/
def parseFuel (args : List Str) : Nat := args.foldr (fun s a => s.length + 1 + a) 0

/-- Options.Parse. -/
def parse (o : Options) (args : List Str) : PRes :=
  parseLoop (parseFuel args + 1) o args []

/-- The observable value of a 32-bit integer receiver. -/
def recvIntVal : Recv → Option Int
  | .rInt v => some v
  | _ => none

/-- The observable value of a 64-bit unsigned receiver. -/
def recvUintVal : Recv → Option Nat
  | .rUint64 v => some v
  | _ => none

/-- The event trace produced by one Parse iteration. -/
def iterTrace : Iter → List Event
  | .done _ => []
  | .fail _ _ tr => tr
  | .panicked _ => []
  | .next _ _ tr => tr

/-- Spec step 3 (long-form token handling), written from the spec's
words: try the exact long-name match first and consume the token; only
if that fails split at the first '=' and select the left part, and only
when it names a registered long option that accepts a value, the right
part becoming the already-extracted inline value; in every other case
fail with NoSuchOption carrying the original token as detail. -/
def longFormSpec (o : Options) (name arg : Str) (rest : List Str) : Iter :=
  match o.longM.lookup name with
  | some idx => afterMatch o.opts idx arg rest
  | none =>
    match splitEq name with
    | some p =>
      match o.longM.lookup p.1 with
      | some idx =>
        if (getOpt o.opts idx).hasValue then afterMatch o.opts idx arg (p.2 :: rest)
        else .fail (mkErr errNoSuchOption arg) o.opts []
      | none => .fail (mkErr errNoSuchOption arg) o.opts []
    | none => .fail (mkErr errNoSuchOption arg) o.opts []

/-- A value-less short option, as in the C1 scenario. -/
def shortFlag (c : Char) : Opt :=
  { defaultOpt with short := [c] }

/-- The C1 registry: exactly the three value-less short options v, y, x. -/
def c1reg : Options := (add emptyOptions [shortFlag 'v', shortFlag 'y', shortFlag 'x']).1

/-- The C1 argument vector. -/
def c1args : List Str := [str "-vyx", str "--", str "--wrong", str "extra"]

/-- A long option x with a 32-bit signed integer destination. -/
def regInt : Options :=
  (add emptyOptions [{ defaultOpt with long := str "x", valueReceiver := .rInt 0 }]).1

/-- A long option x with a 64-bit unsigned integer destination. -/
def regUint : Options :=
  (add emptyOptions [{ defaultOpt with long := str "x", valueReceiver := .rUint64 0 }]).1

/-- A long option y with a boolean destination and a handler that
always succeeds, for observing the string the handler receives. -/
def regBoolHandler : Options :=
  (add emptyOptions
    [{ defaultOpt with
        long := str "y"
        valueReceiver := .rBool false
        handle := some (fun _ => none) }]).1

/-- A short option x that takes a value (string destination). -/
def regShortVal : Options :=
  (add emptyOptions [{ defaultOpt with short := str "x", valueReceiver := .rString [] }]).1

/-- The C10 option: a fresh long name with a two-character short name. -/
def c10opt : Opt := { defaultOpt with long := str "foo", short := str "ab" }

/-- Registering the C10 option on an empty registry. -/
def c10res : Options × Option Str := add emptyOptions [c10opt]

/-- If the Parse loop stops with an error, the returned residual is
empty, whatever the fuel. -/
theorem parseLoop_error_residual (fuel : Nat) (o : Options) (args : List Str)
    (tr : List Event) (h : (parseLoop fuel o args tr).error.isSome) :
    (parseLoop fuel o args tr).residual = [] := by
  induction fuel generalizing o args tr with
  | zero => simp [parseLoop] at h
  | succ n ih =>
    simp only [parseLoop] at h ⊢
    cases hi : parseIter o args with
    | done res => simp [hi] at h
    | fail e opts1 tr1 => rfl
    | panicked opts1 => simp [hi] at h
    | next opts1 args1 tr1 => rw [hi] at h; exact ih _ _ _ h

/-- C1: parsing ["-vyx", "--", "--wrong", "extra"] against a registry
holding exactly the three value-less short options v, y and x marks all
three options as seen, consumes the "--" terminator, and returns the
residual ["--wrong", "extra"] unconsumed even though those tokens look
like options. -/
theorem c1_cluster_terminator_residual :
    c1reg.longM = [] ∧
    c1reg.shortM.lookup (str "v") = some 0 ∧
    c1reg.shortM.lookup (str "y") = some 1 ∧
    c1reg.shortM.lookup (str "x") = some 2 ∧
    c1reg.shortM.length = 3 ∧
    (parse c1reg c1args).residual = [str "--wrong", str "extra"] ∧
    (parse c1reg c1args).error = none ∧
    (parse c1reg c1args).panicked = false ∧
    (getOpt (parse c1reg c1args).opts 0).seen = true ∧
    (getOpt (parse c1reg c1args).opts 1).seen = true ∧
    (getOpt (parse c1reg c1args).opts 2).seen = true := by
  decide

/-- C2: on a token that is exactly "-", the code takes the short-option
branch with an empty remainder and evaluates the out-of-bounds slice
name[:1] of the empty string, so Parse panics for every registry
instead of returning a NoSuchOption error. -/
theorem c2_bare_dash_panics (o : Options) (rest : List Str) :
    (parse o (str "-" :: rest)).panicked = true := by
  show (parseLoop (parseFuel (str "-" :: rest) + 1) o (str "-" :: rest) []).panicked = true
  simp [parseLoop, parseIter, str, List.isPrefixOf]

/-- C7: a 32-bit signed destination parses base-10 only, so "32" stores
32 while "2.5", "", "0x100" and the overflowing "1000000000000" all
fail with ParsingValue; a 64-bit unsigned destination auto-detects the
base, so "0x100" stores 256 and "-123" fails with ParsingValue. -/
theorem c7_integer_coercion :
    (parse regInt [str "--x", str "32"]).error = none ∧
    recvIntVal (getOpt (parse regInt [str "--x", str "32"]).opts 0).valueReceiver = some 32 ∧
    (parse regInt [str "--x", str "2.5"]).error = some (mkErr errParsingValue (str "--x")) ∧
    (parse regInt [str "--x", str ""]).error = some (mkErr errParsingValue (str "--x")) ∧
    (parse regInt [str "--x", str "0x100"]).error = some (mkErr errParsingValue (str "--x")) ∧
    (parse regInt [str "--x", str "1000000000000"]).error
        = some (mkErr errParsingValue (str "--x")) ∧
    (parse regUint [str "--x", str "0x100"]).error = none ∧
    recvUintVal (getOpt (parse regUint [str "--x", str "0x100"]).opts 0).valueReceiver
        = some 256 ∧
    (parse regUint [str "--x", str "-123"]).error = some (mkErr errParsingValue (str "--x")) := by
  decide

/-- C10: registering an option whose short form has two characters
fails with the ErrShortOptionTooLong kind, which none of the five
documented error-kind predicates recognises; since the length check
runs after long-name insertion, the option is nevertheless registered
under its fresh long name, and under no short name. -/
theorem c10_short_too_long_partial :
    c10res.2 = some (mkErr errShortOptionTooLong (str "ab")) ∧
    errIs errShortOptionTooLong (mkErr errShortOptionTooLong (str "ab")) = true ∧
    errIs errNoSuchOption (mkErr errShortOptionTooLong (str "ab")) = false ∧
    errIs errOptionRequiresValue (mkErr errShortOptionTooLong (str "ab")) = false ∧
    errIs errParsingValue (mkErr errShortOptionTooLong (str "ab")) = false ∧
    errIs errDuplicateOption (mkErr errShortOptionTooLong (str "ab")) = false ∧
    errIs errShortAndLongEmpty (mkErr errShortOptionTooLong (str "ab")) = false ∧
    c10res.1.longM.lookup (str "foo") = some 0 ∧
    (getOpt c10res.1.opts 0).long = str "foo" ∧
    c10res.1.shortM = [] := by
  decide

/-- Reading back the heap slot just written. -/
theorem getOpt_set_self (opts : List Opt) (idx : Nat) (x : Opt) (hlt : idx < opts.length) :
    getOpt (opts.set idx x) idx = x := by
  unfold getOpt
  rw [List.getD_eq_getElem?_getD, List.getElem?_set_self', List.getElem?_eq_getElem hlt]
  rfl

/-- Writing one heap slot leaves every other slot unchanged. -/
theorem getOpt_set_ne (opts : List Opt) (idx j : Nat) (x : Opt) (hne : j ≠ idx) :
    getOpt (opts.set idx x) j = getOpt opts j := by
  unfold getOpt
  rw [List.getD_eq_getElem?_getD, List.getD_eq_getElem?_getD,
    List.getElem?_set_ne (Ne.symm hne)]

/-- An out-of-range heap read yields the zero Option. -/
theorem getOpt_default (opts : List Opt) (idx : Nat) (hge : opts.length ≤ idx) :
    getOpt opts idx = defaultOpt := by
  unfold getOpt
  rw [List.getD_eq_getElem?_getD, List.getElem?_eq_none hge]
  rfl

/-- C3: a token of the form "--name" (with nonempty name, hence not the
bare terminator) is handled exactly as the spec's long-form step
describes: exact match first, then the '='-split accepted only for a
registered long option that takes a value, otherwise NoSuchOption with
the original token as detail. -/
theorem c3_long_form (o : Options) (c : Char) (cs : Str) (rest : List Str) :
    parseIter o (('-' :: '-' :: c :: cs) :: rest)
      = longFormSpec o (c :: cs) ('-' :: '-' :: c :: cs) rest := by
  simp [parseIter, longFormSpec, List.isPrefixOf, str]

/-- C4: for a matched value-taking short option with trailing
characters, the inline value is the text after the '=' exactly when the
character after the option character is '=' and '=' is not itself a
registered short option; otherwise it is everything after the option
character.  Either way the iteration proceeds directly to committing
that value, consuming no additional token. -/
theorem c4_short_inline_value (o : Options) (idx : Nat) (c c2 : Char) (cs2 : Str)
    (rest : List Str) (hc : c ≠ '-')
    (hfound : o.shortM.lookup [c] = some idx)
    (hval : (getOpt o.opts idx).hasValue = true) :
    parseIter o (('-' :: c :: c2 :: cs2) :: rest)
      = applyOpt o.opts idx ('-' :: c :: c2 :: cs2)
          (if c2 = '=' ∧ o.shortM.lookup (str "=") = none then cs2 else c2 :: cs2) rest := by
  by_cases hc2 : c2 = '='
  · subst hc2
    by_cases heq : List.lookup (['='] : Str) o.shortM = none
    · simp [parseIter, afterMatch, List.isPrefixOf, str, hfound, hval, hc, Ne.symm hc, heq]
    · simp [parseIter, afterMatch, List.isPrefixOf, str, hfound, hval, hc, Ne.symm hc, heq]
  · simp [parseIter, afterMatch, List.isPrefixOf, str, hfound, hval, hc, Ne.symm hc, hc2]

/-- C4 witness: the -x=v form on a registered value-taking x, with '='
unregistered, extracts the inline value "v". -/
theorem c4_short_inline_value_witness :
    (('x' : Char) ≠ '-') ∧
    regShortVal.shortM.lookup ['x'] = some 0 ∧
    (getOpt regShortVal.opts 0).hasValue = true ∧
    parseIter regShortVal (('-' :: 'x' :: '=' :: str "v") :: [])
      = applyOpt regShortVal.opts 0 ('-' :: 'x' :: '=' :: str "v")
          (if ('=' : Char) = '=' ∧ regShortVal.shortM.lookup (str "=") = none then str "v"
           else '=' :: str "v") [] := by
  refine ⟨by decide, by decide, by decide, ?_⟩
  exact c4_short_inline_value regShortVal 0 'x' '=' (str "v") [] (by decide) (by decide)
    (by decide)

/-- C5 counterexample: with a boolean destination and a handler, the
raw value "yes" is committed to RawValue, but the handler is invoked
with the remapped string "true", not with the raw value. -/
theorem c5_handler_gets_remapped_value :
    (parse regBoolHandler [str "--y", str "yes"]).trace
        = [.coerced 0 (str "true"), .handled 0 (str "true")] ∧
    (getOpt (parse regBoolHandler [str "--y", str "yes"]).opts 0).rawValue = str "yes" ∧
    str "true" ≠ str "yes" := by
  decide

/-- Whatever a present handler returns, the dispatch appends exactly
one invocation event to the trace. -/
theorem iterTrace_dispatchHandle (opts : List Opt) (idx : Nat) (val : Str)
    (args : List Str) (tr : List Event)
    (hh : (getOpt opts idx).handle.isSome = true) :
    iterTrace (dispatchHandle opts idx val args tr) = tr ++ [.handled idx val] := by
  unfold dispatchHandle
  cases hcase : (getOpt opts idx).handle with
  | none => rw [hcase] at hh; cases hh
  | some h => cases hx : h val <;> simp [hx, iterTrace]

/-- C5 (amended): whenever the matched option has a handler, the
iteration invokes it exactly once, strictly after the successful
coercion event when a coercion applies, never when coercion fails, and
its argument is the val string as coercion leaves it: possibly
boolean-remapped for a boolean destination, otherwise the raw value
(empty for a value-less option). -/
theorem c5_handler_once_after_coercion (opts : List Opt) (idx : Nat) (arg0 val : Str)
    (args : List Str) (h : Str → Option Str)
    (hh : (getOpt opts idx).handle = some h) :
    iterTrace (applyOpt opts idx arg0 val args) =
      if (getOpt opts idx).hasValue && !recvNil (getOpt opts idx).valueReceiver then
        if (coerce (getOpt opts idx).valueReceiver val).2.2 then
          [.coerced idx (coerce (getOpt opts idx).valueReceiver val).2.1,
           .handled idx (coerce (getOpt opts idx).valueReceiver val).2.1]
        else []
      else [.handled idx val] := by
  have hlt : idx < opts.length := by
    by_contra hge
    push_neg at hge
    rw [getOpt_default opts idx hge] at hh
    simp [defaultOpt] at hh
  by_cases hg : ((getOpt opts idx).hasValue && !recvNil (getOpt opts idx).valueReceiver) = true
  · by_cases hok : (coerce (getOpt opts idx).valueReceiver val).2.2 = true
    · simp only [applyOpt, hg, if_true, hok]
      rw [iterTrace_dispatchHandle]
      · simp [hg, hok]
      · rw [getOpt_set_self _ _ _ (by simpa using hlt)]
        simp [hh]
    · simp only [applyOpt, hg, if_true]
      simp only [Bool.not_eq_true] at hok
      simp [hok, iterTrace, hg]
  · simp only [Bool.not_eq_true] at hg
    simp only [applyOpt, hg, Bool.false_eq_true, if_false]
    rw [iterTrace_dispatchHandle]
    · simp [hg]
    · rw [getOpt_set_self _ _ _ hlt]
      simp [hh]

/-- C5 witness for the amended statement, on the boolean-destination
registry: the handler runs once, after coercion, with "true". -/
theorem c5_handler_once_witness :
    ((getOpt regBoolHandler.opts 0).handle = some (fun _ => none)) ∧
    iterTrace (applyOpt regBoolHandler.opts 0 (str "--y") (str "yes") [])
      = [.coerced 0 (str "true"), .handled 0 (str "true")] := by
  constructor
  · rfl
  · rw [c5_handler_once_after_coercion regBoolHandler.opts 0 (str "--y") (str "yes") []
      (fun _ => none) rfl]
    decide

/-- C6: when value coercion fails, the iteration aborts with a
ParsingValue error carrying the original token, yet the failing
option's Seen flag is already true and its RawValue already holds the
raw string, while every other option record is left exactly as it was
before the iteration. -/
theorem c6_coercion_failure_commits (opts : List Opt) (idx : Nat) (arg0 val : Str)
    (args : List Str) (hlt : idx < opts.length)
    (hv : (getOpt opts idx).hasValue = true)
    (hr : recvNil (getOpt opts idx).valueReceiver = false)
    (hfail : (coerce (getOpt opts idx).valueReceiver val).2.2 = false) :
    ∃ opts2, applyOpt opts idx arg0 val args = .fail (mkErr errParsingValue arg0) opts2 [] ∧
      (getOpt opts2 idx).seen = true ∧
      (getOpt opts2 idx).rawValue = val ∧
      ∀ j, j ≠ idx → getOpt opts2 j = getOpt opts j := by
  have hg : ((getOpt opts idx).hasValue && !recvNil (getOpt opts idx).valueReceiver) = true := by
    rw [hv, hr]
    rfl
  have hkey : applyOpt opts idx arg0 val args
      = .fail (mkErr errParsingValue arg0)
          ((opts.set idx { getOpt opts idx with seen := true, rawValue := val }).set idx
            { getOpt opts idx with
                seen := true
                rawValue := val
                valueReceiver := (coerce (getOpt opts idx).valueReceiver val).1 }) [] := by
    simp [applyOpt, hg, hfail, hv, hr]
  refine ⟨_, hkey, ?_, ?_, ?_⟩
  · rw [getOpt_set_self _ _ _ (by simpa using hlt)]
  · rw [getOpt_set_self _ _ _ (by simpa using hlt)]
  · intro j hj
    rw [getOpt_set_ne _ _ _ _ hj, getOpt_set_ne _ _ _ _ hj]

/-- C6 witness: a failing 32-bit integer coercion commits Seen and
RawValue on the failing option and touches nothing else. -/
theorem c6_coercion_failure_witness :
    (0 < regInt.opts.length) ∧
    ((getOpt regInt.opts 0).hasValue = true) ∧
    (recvNil (getOpt regInt.opts 0).valueReceiver = false) ∧
    ((coerce (getOpt regInt.opts 0).valueReceiver (str "bad")).2.2 = false) ∧
    (∃ opts2, applyOpt regInt.opts 0 (str "--x") (str "bad") []
          = .fail (mkErr errParsingValue (str "--x")) opts2 [] ∧
        (getOpt opts2 0).seen = true ∧
        (getOpt opts2 0).rawValue = str "bad" ∧
        ∀ j, j ≠ 0 → getOpt opts2 j = getOpt regInt.opts j) := by
  refine ⟨by decide, by decide, by decide, by decide, ?_⟩
  exact c6_coercion_failure_commits regInt.opts 0 (str "--x") (str "bad") []
    (by decide) (by decide) (by decide) (by decide)

/-- C8: whenever Parse returns an error of any kind, the residual it
returns is empty, never a non-empty partial tail of the input. -/
theorem c8_error_empty_residual (o : Options) (args : List Str)
    (h : (parse o args).error.isSome) : (parse o args).residual = [] :=
  parseLoop_error_residual _ o args [] h

/-- C8 witness: a NoSuchOption failure returns an empty residual. -/
theorem c8_error_empty_residual_witness :
    ((parse c1reg [str "--bogus"]).error.isSome = true) ∧
    (parse c1reg [str "--bogus"]).residual = [] :=
  ⟨by decide, c8_error_empty_residual c1reg [str "--bogus"] (by decide)⟩

/-- Prepending a binding for a key not present in the map preserves
every lookup that succeeded before. -/
theorem lookup_cons_preserve (m : List (Str × Nat)) (key : Str) (idx : Nat) (k : Str) (v : Nat)
    (hnew : m.lookup key = none) (h : m.lookup k = some v) :
    List.lookup k ((key, idx) :: m) = some v := by
  rw [List.lookup]
  cases hk : (k == key) with
  | true =>
    have hkk : k = key := eq_of_beq hk
    subst hkk
    rw [h] at hnew
    cases hnew
  | false => exact h

/-- addShortPhase never changes the long-name map. -/
theorem addShortPhase_longM (o : Options) (idx : Nat) (opt1 : Opt) :
    (addShortPhase o idx opt1).1.longM = o.longM := by
  unfold addShortPhase addFinish
  repeat' split
  all_goals rfl

/-- addShortPhase preserves every successful short-map lookup. -/
theorem addShortPhase_short_mono (o : Options) (idx : Nat) (opt1 : Opt) (k : Str) (v : Nat)
    (h : o.shortM.lookup k = some v) :
    (addShortPhase o idx opt1).1.shortM.lookup k = some v := by
  simp only [addShortPhase, addFinish]
  repeat' split
  all_goals first
    | exact h
    | (rename_i hdup
       exact lookup_cons_preserve _ _ _ _ _ (Option.not_isSome_iff_eq_none.mp hdup) h)

/-- One Add iteration preserves every successful long-map lookup. -/
theorem addOne_long_mono (o : Options) (a : Opt) (k : Str) (v : Nat)
    (h : o.longM.lookup k = some v) : (addOne o a).1.longM.lookup k = some v := by
  simp only [addOne]
  repeat' split
  all_goals first
    | exact h
    | (rw [addShortPhase_longM]; exact h)
    | (rw [addShortPhase_longM]
       rename_i hdup
       exact lookup_cons_preserve _ _ _ _ _ (Option.not_isSome_iff_eq_none.mp hdup) h)

/-- One Add iteration preserves every successful short-map lookup. -/
theorem addOne_short_mono (o : Options) (a : Opt) (k : Str) (v : Nat)
    (h : o.shortM.lookup k = some v) : (addOne o a).1.shortM.lookup k = some v := by
  simp only [addOne]
  repeat' split
  all_goals first
    | exact h
    | exact addShortPhase_short_mono _ _ _ _ _ h

/-- Add preserves every successful long-map lookup, also across a
failing option. -/
theorem add_long_mono (l : List Opt) : ∀ (o : Options) (k : Str) (v : Nat),
    o.longM.lookup k = some v → (add o l).1.longM.lookup k = some v := by
  induction l with
  | nil => intro o k v h; exact h
  | cons a rest ih =>
    intro o k v h
    simp only [add]
    cases ha : addOne o a with
    | mk o1 e =>
      have h1 : o1.longM.lookup k = some v := by
        have h2 := addOne_long_mono o a k v h
        rw [ha] at h2
        exact h2
      cases e with
      | none => exact ih o1 k v h1
      | some err => exact h1

/-- Add preserves every successful short-map lookup, also across a
failing option. -/
theorem add_short_mono (l : List Opt) : ∀ (o : Options) (k : Str) (v : Nat),
    o.shortM.lookup k = some v → (add o l).1.shortM.lookup k = some v := by
  induction l with
  | nil => intro o k v h; exact h
  | cons a rest ih =>
    intro o k v h
    simp only [add]
    cases ha : addOne o a with
    | mk o1 e =>
      have h1 : o1.shortM.lookup k = some v := by
        have h2 := addOne_short_mono o a k v h
        rw [ha] at h2
        exact h2
      cases e with
      | none => exact ih o1 k v h1
      | some err => exact h1

/-- A bulk Add over an appended list first runs the successful front
part, then continues from its resulting registry. -/
theorem add_append (o : Options) (l1 l2 : List Opt) (h : (add o l1).2 = none) :
    add o (l1 ++ l2) = add (add o l1).1 l2 := by
  induction l1 generalizing o with
  | nil => rfl
  | cons a rest ih =>
    simp only [List.cons_append, add] at h ⊢
    cases ha : addOne o a with
    | mk o1 e =>
      rw [ha] at h
      cases e with
      | none => exact ih o1 h
      | some err => cases h

/-- C9: when a bulk register call fails on one of its options, every
option successfully added earlier in that same call is still present in
the long and short mappings afterwards: Add performs no rollback. -/
theorem c9_no_rollback (o : Options) (l1 l2 : List Opt)
    (h1 : (add o l1).2 = none) (h2 : (add (add o l1).1 l2).2.isSome) :
    (add o (l1 ++ l2)).2.isSome = true ∧
    (∀ k v, (add o l1).1.longM.lookup k = some v →
      (add o (l1 ++ l2)).1.longM.lookup k = some v) ∧
    (∀ k v, (add o l1).1.shortM.lookup k = some v →
      (add o (l1 ++ l2)).1.shortM.lookup k = some v) := by
  rw [add_append o l1 l2 h1]
  exact ⟨h2, fun k v hkv => add_long_mono l2 _ k v hkv,
    fun k v hkv => add_short_mono l2 _ k v hkv⟩

/-- C9 witness: a call registering v and then an option with neither
name fails, yet v stays registered. -/
theorem c9_no_rollback_witness :
    ((add emptyOptions [shortFlag 'v']).2 = none) ∧
    ((add (add emptyOptions [shortFlag 'v']).1 [defaultOpt]).2.isSome = true) ∧
    (add emptyOptions ([shortFlag 'v'] ++ [defaultOpt])).2.isSome = true ∧
    (add emptyOptions ([shortFlag 'v'] ++ [defaultOpt])).1.shortM.lookup (str "v") = some 0 := by
  have h := c9_no_rollback emptyOptions [shortFlag 'v'] [defaultOpt] (by decide) (by decide)
  exact ⟨by decide, by decide, h.1, h.2.2 (str "v") 0 (by decide)⟩

end Optopia
